import Mathlib

/-!
Verification of the etcpak command-line front end (`Application.cpp`).

The file shallowly embeds the orchestration logic of `main`:
flag parsing (the getopt loop, lines 79-118), the ETC2 dithering
override (lines 120-124), positional-argument checks (lines 126-148),
the benchmark path (lines 150-206), and the normal encoding path
(lines 213-284): format selection, block-buffer allocation, the
task-queueing loop, the synchronization barrier, and the optional
quality measurement.

Collaborators that are not part of the given source (`DataProvider`,
`BlockData`, `TaskDispatch`, `CalcMSE3`) are modelled from the spec,
as marked in their doc comments.
-/

/-- The `BlockData::Type` enumeration of target formats. -/
inductive BlockType
  | Etc1
  | Etc2_RGB
  | Etc2_RGBA
  | Dxt1
deriving DecidableEq, Repr

/-- The `Channels` enumeration: which channel group an encoding call reads. -/
inductive Channel
  | RGB
  | Alpha
deriving DecidableEq, Repr

/-- Which destination block buffer an encoding call writes to: the color
buffer `bd` or the separate alpha buffer `bda` of `main`. -/
inductive BufId
  | color
  | alphaBuf
deriving DecidableEq, Repr

/-- The command-line state of `main` (lines 48-56): the mode and format
flags together with the optional separate-alpha output path. -/
structure Flags where
  viewMode : Bool
  stats : Bool
  benchmark : Bool
  mipmap : Bool
  dither : Bool
  etc2 : Bool
  rgba : Bool
  dxt1 : Bool
  alpha : Option String
deriving DecidableEq, Repr

/-- The initial flag values of `main` (lines 48-56): everything off,
no alpha path. -/
def initialFlags : Flags :=
  ⟨false, false, false, false, false, false, false, false, none⟩

/-- One recognized command-line option, as dispatched by the getopt loop
(lines 80-118).  `o` is accepted by the option string but handled by the
`default` case, i.e. ignored. -/
inductive Opt
  | v
  | o (out : String)
  | a (path : String)
  | s
  | b
  | m
  | d
  | etc2
  | rgba
  | dxt1
deriving DecidableEq, Repr

/-- The body of the getopt `switch` (lines 82-117): how one option updates
the flag state.  Note `OptRgba` (lines 108-111) sets `etc2` as well. -/
def applyOpt (f : Flags) : Opt → Flags
  | .v => { f with viewMode := true }
  | .o _ => f
  | .a path => { f with alpha := some path }
  | .s => { f with stats := true }
  | .b => { f with benchmark := true }
  | .m => { f with mipmap := true }
  | .d => { f with dither := true }
  | .etc2 => { f with etc2 := true }
  | .rgba => { f with rgba := true, etc2 := true }
  | .dxt1 => { f with dxt1 := true }

/-- The whole getopt loop (lines 79-118): fold the options over the
initial flag state. -/
def parseOpts (opts : List Opt) : Flags :=
  opts.foldl applyOpt initialFlags

/-- Lines 120-124: dithering is turned off when ETC2 mode is active. -/
def adjustDither (f : Flags) : Flags :=
  if f.etc2 && f.dither then { f with dither := false } else f

/-- Format selection of the normal encoding path (lines 218-237). -/
def selectType (etc2 rgba srcAlpha dxt1 : Bool) : BlockType :=
  if etc2 then
    if rgba && srcAlpha then BlockType.Etc2_RGBA else BlockType.Etc2_RGB
  else if dxt1 then BlockType.Dxt1
  else BlockType.Etc1

/-- Format selection of the benchmark path (lines 185-188).  Note that it
never consults the presence of an alpha channel in the source. -/
def selectTypeBenchmark (etc2 rgba dxt1 : Bool) : BlockType :=
  if rgba then BlockType.Etc2_RGBA
  else if etc2 then BlockType.Etc2_RGB
  else if dxt1 then BlockType.Dxt1
  else BlockType.Etc1

/-- Modelled from the spec: the format-selection decision table of
section 8: \x7betc2=false,dxt1=false\x7d gives ETC1; \x7betc2,rgba,srcAlpha\x7d
gives ETC2_RGBA; \x7betc2,rgba,not srcAlpha\x7d gives ETC2_RGB;
\x7betc2,not rgba\x7d gives ETC2_RGB; \x7bdxt1,not etc2\x7d gives DXT1. -/
def specFormatChoice (etc2 rgba srcAlpha dxt1 : Bool) : BlockType :=
  if !etc2 && !dxt1 then BlockType.Etc1
  else if etc2 && rgba && srcAlpha then BlockType.Etc2_RGBA
  else if etc2 && rgba && !srcAlpha then BlockType.Etc2_RGB
  else if etc2 && !rgba then BlockType.Etc2_RGB
  else BlockType.Dxt1

/-- Is the format an ETC2 variant? -/
def isEtc2 : BlockType → Bool
  | .Etc2_RGB => true
  | .Etc2_RGBA => true
  | _ => false

/-- Modelled from the spec: one partition handed out by the
Partitioner (`DataProvider::NextPart`, DataProvider is not part of the
given source) — a pointer/offset into source pixels, the level pixel
width, the `lines` count, and the destination offset (section 3 of the
spec). -/
structure DataPart where
  src : Nat
  width : Nat
  lines : Nat
  offset : Nat
deriving DecidableEq, Repr

/-- Modelled from the spec: the image source as exposed through
`DataProvider` (not part of the given source): base dimensions, alpha
presence (`dp.Alpha()`), and the finite sequence of partitions that
`NextPart` produces; `NumberOfParts` is its length (section 4.2 of the
spec). -/
structure Source where
  width : Nat
  height : Nat
  hasAlpha : Bool
  parts : List DataPart
deriving DecidableEq, Repr

/-- Modelled from the spec: `NumberOfParts()` is the number of partitions
the Partitioner hands out. -/
def Source.NumberOfParts (s : Source) : Nat :=
  s.parts.length

/-- One call into the block codec, as issued by `main`: either
`BlockData::Process` (with channel and dither arguments) or
`BlockData::ProcessRGBA` (which offers neither). -/
inductive EncodeCall
  | process (buf : BufId) (src : Nat) (blockCount : Nat) (offset : Nat)
      (width : Nat) (channel : Channel) (dither : Bool)
  | processRGBA (buf : BufId) (src : Nat) (blockCount : Nat) (offset : Nat)
      (width : Nat)
deriving DecidableEq, Repr

/-- The destination buffer of an encoding call. -/
def callBuf : EncodeCall → BufId
  | .process buf _ _ _ _ _ _ => buf
  | .processRGBA buf _ _ _ _ => buf

/-- The `blockCount` argument of an encoding call. -/
def callBlockCount : EncodeCall → Nat
  | .process _ _ bc _ _ _ _ => bc
  | .processRGBA _ _ bc _ _ => bc

/-- The destination offset argument of an encoding call. -/
def callOffset : EncodeCall → Nat
  | .process _ _ _ off _ _ _ => off
  | .processRGBA _ _ _ off _ => off

/-- The effective dither flag of an encoding call; `ProcessRGBA` takes no
dither argument, so no dithering is applied on that path. -/
def callDither : EncodeCall → Bool
  | .process _ _ _ _ _ _ dit => dit
  | .processRGBA _ _ _ _ _ => false

/-- An event of the encoding pipeline: queueing one unit on the task
dispatcher, the synchronization barrier, or a decode of the color buffer
for quality measurement. -/
inductive Event
  | queue (u : EncodeCall)
  | sync
  | decode
deriving DecidableEq, Repr

/-- The `blockCount` the queueing loop passes for a partition
(lines 255, 262, 268): `part.width / 4 * part.lines`. -/
def queuedBlockCount (p : DataPart) : Nat :=
  p.width / 4 * p.lines

/-- Modelled from the spec and the claim under examination: the number of
4×4 pixel blocks a partition contains when `lines` is read as the
partition's pixel-row count, i.e. `(width × lines) / 16`. -/
def specClaimedBlockCount (p : DataPart) : Nat :=
  p.width * p.lines / 16

/-- The units the loop body (lines 251-271) queues for one partition:
one `ProcessRGBA` color unit when the format is ETC2_RGBA, otherwise one
`Process` color unit followed, when the separate alpha buffer exists, by
one `Process` alpha unit whose dither argument is the literal `false`
(line 268). -/
def partUnits (type : BlockType) (bda : Bool) (dither : Bool) (p : DataPart) :
    List EncodeCall :=
  if type = BlockType.Etc2_RGBA then
    [EncodeCall.processRGBA BufId.color p.src (queuedBlockCount p) p.offset p.width]
  else
    [EncodeCall.process BufId.color p.src (queuedBlockCount p) p.offset p.width
      Channel.RGB dither]
    ++ (if bda then
        [EncodeCall.process BufId.alphaBuf p.src (queuedBlockCount p) p.offset
          p.width Channel.Alpha false]
      else [])

/-- The result of the normal encoding path (lines 213-284): the selected
format, whether the separate alpha buffer was allocated, and the ordered
event trace (queue operations for every partition, then the single
`Sync`, then the optional decode for statistics). -/
structure EncodeRun where
  type : BlockType
  alphaAllocated : Bool
  events : List Event
deriving DecidableEq, Repr

/-- The normal encoding path of `main` (lines 213-284), applied to the
flag state after the dithering adjustment.  The separate alpha buffer is
allocated iff an alpha path was given, the source has alpha, and combined
RGBA mode is off (line 243). -/
def encodeRun (f : Flags) (src : Source) : EncodeRun :=
  let type := selectType f.etc2 f.rgba src.hasAlpha f.dxt1
  let bda := f.alpha.isSome && src.hasAlpha && !f.rgba
  { type := type
    alphaAllocated := bda
    events :=
      (src.parts.flatMap (partUnits type bda f.dither)).map Event.queue
      ++ [Event.sync]
      ++ (if f.stats then [Event.decode] else []) }

/-- The benchmark encode path (lines 170-205): the format is chosen by
`selectTypeBenchmark`, and each of the nine timing iterations issues the
same single codec call over the whole base image
(`Size().x * Size().y / 16` blocks at offset 0). -/
structure BenchRun where
  type : BlockType
  calls : List EncodeCall
deriving DecidableEq, Repr

/-- Lines 177-201: the benchmark loop.  The channel is `Alpha` when an
alpha path was given, else `RGB` (lines 183-184); `ProcessRGBA` is used
when `rgba` is set, else `Process` with the (adjusted) dither flag
(lines 191-198). -/
def benchRun (f : Flags) (src : Source) : BenchRun :=
  let channel := if f.alpha.isSome then Channel.Alpha else Channel.RGB
  let type := selectTypeBenchmark f.etc2 f.rgba f.dxt1
  let call :=
    if f.rgba then
      EncodeCall.processRGBA BufId.color 0 (src.width * src.height / 16) 0 src.width
    else
      EncodeCall.process BufId.color 0 (src.width * src.height / 16) 0 src.width
        channel f.dither
  { type := type, calls := List.replicate 9 call }

/-- The outcome of one run of `main`: a usage error (exit code 1 with
nothing done), the benchmark decode mode, a benchmark encode, the view
mode, or a normal encoding run. -/
inductive RunOutcome
  | usage
  | benchView
  | benchEncode (b : BenchRun)
  | view
  | encode (r : EncodeRun)
deriving DecidableEq, Repr

/-- `main` from the dithering adjustment on (lines 120-284), taking the
already-parsed flag state and the number of remaining positional
arguments (`argc - optind`): benchmark mode needs one positional
argument, the other modes two (lines 128-148). -/
def mainFromFlags (f0 : Flags) (npos : Nat) (src : Source) : RunOutcome :=
  let f := adjustDither f0
  if f.benchmark then
    if npos < 1 then RunOutcome.usage
    else if f.viewMode then RunOutcome.benchView
    else RunOutcome.benchEncode (benchRun f src)
  else
    if npos < 2 then RunOutcome.usage
    else if f.viewMode then RunOutcome.view
    else RunOutcome.encode (encodeRun f src)

/-- The full model of `main` on a recognized option list: parse, then run. -/
def mainModel (opts : List Opt) (npos : Nat) (src : Source) : RunOutcome :=
  mainFromFlags (parseOpts opts) npos src

/-- The format tag a run encodes with, when it encodes at all. -/
def runFormat : RunOutcome → Option BlockType
  | .benchEncode b => some b.type
  | .encode r => some r.type
  | _ => none

/-- The codec calls a run issues. -/
def queuedCalls (r : EncodeRun) : List EncodeCall :=
  r.events.filterMap fun e =>
    match e with
    | .queue u => some u
    | _ => none

/-- All codec calls of a run outcome. -/
def runCalls : RunOutcome → List EncodeCall
  | .benchEncode b => b.calls
  | .encode r => queuedCalls r
  | _ => []

/-- The number of units the loop queues per partition: one `ProcessRGBA`
unit in combined RGBA mode, otherwise one color unit plus one alpha unit
when the separate alpha buffer exists. -/
def unitsPerPart (type : BlockType) (bda : Bool) : Nat :=
  if type = BlockType.Etc2_RGBA then 1 else if bda then 2 else 1

/-- The two destination block buffers of a run (`bd` and `bda`), each a
byte-addressed store.  Modelled from the spec, section 3: a Block Buffer
is a contiguous byte buffer written by worker units within disjoint
byte ranges. -/
structure Store where
  color : Nat → Nat
  alpha : Nat → Nat

/-- Overwrite the byte range starting at `lo` of length `len` with
`data` (indexed relative to `lo`), leaving every other byte unchanged. -/
def writeRange (lo len : Nat) (data : Nat → Nat) (buf : Nat → Nat) : Nat → Nat :=
  fun a => if lo ≤ a ∧ a < lo + len then data (a - lo) else buf a

/-- Modelled from the spec, sections 3 and 4.3: the byte footprint of an
encoding call is `blockCount * bytesPerBlock`, with 16 bytes per block on
the `ProcessRGBA` path and 8 bytes per block otherwise. -/
def callBytes : EncodeCall → Nat
  | .process _ _ bc _ _ _ _ => bc * 8
  | .processRGBA _ _ bc _ _ => bc * 16

/-- Modelled from the spec, section 4.3: executing one encoding call
writes exactly the byte range `[offset, offset + callBytes)` of its
destination buffer, with contents `enc u` depending only on the call
(the per-block quantization `enc` is pure). -/
def runUnit (enc : EncodeCall → Nat → Nat) (s : Store) (u : EncodeCall) : Store :=
  if callBuf u = BufId.color then
    { s with color := writeRange (callOffset u) (callBytes u) (enc u) s.color }
  else
    { s with alpha := writeRange (callOffset u) (callBytes u) (enc u) s.alpha }

/-- Executing a list of encoding calls in order. -/
def runUnits (enc : EncodeCall → Nat → Nat) (us : List EncodeCall) (s : Store) :
    Store :=
  us.foldl (runUnit enc) s

/-- Two encoding calls have disjoint write footprints: they target
different buffers, or their byte ranges do not overlap. -/
def disjointCalls (u v : EncodeCall) : Prop :=
  callBuf u ≠ callBuf v
  ∨ callOffset u + callBytes u ≤ callOffset v
  ∨ callOffset v + callBytes v ≤ callOffset u

instance (u v : EncodeCall) : Decidable (disjointCalls u v) := by
  unfold disjointCalls
  infer_instance

/-- One RGB pixel, as compared by the quality measurement. -/
structure Px where
  r : Int
  g : Int
  b : Int
deriving DecidableEq, Repr

/-- Modelled from the spec: `CalcMSE3` (from the excluded Error module)
computes the mean squared error over the RGB channels of two pixel
sequences. -/
noncomputable def CalcMSE3 (orig dec : List Px) : ℝ :=
  (((orig.zip dec).foldl
      (fun acc pq =>
        acc + ((pq.1.r - pq.2.r) ^ 2 + (pq.1.g - pq.2.g) ^ 2
          + (pq.1.b - pq.2.b) ^ 2)) 0 : ℤ) : ℝ)
    / (3 * orig.length)

/-- Line 281: the reported root-mean-square error is `sqrt(mse)`. -/
noncomputable def reportedRMSE (mse : ℝ) : ℝ :=
  Real.sqrt mse

/-- Line 282: the reported peak signal-to-noise ratio is
`20·log10(255) − 10·log10(mse)`. -/
noncomputable def reportedPSNR (mse : ℝ) : ℝ :=
  20 * Real.logb 10 255 - 10 * Real.logb 10 mse

/-- Lines 276-283: when statistics were requested, the color buffer is
decoded, its MSE against the source is taken, and the RMSE/PSNR pair is
reported; otherwise nothing is reported. -/
noncomputable def measureStep (stats : Bool) (mse : ℝ) : Option (ℝ × ℝ) :=
  if stats then some (reportedRMSE mse, reportedPSNR mse) else none

/-- A source image without an alpha channel, one 4×4 partition. -/
def srcNoAlpha : Source :=
  ⟨4, 4, false, [⟨0, 4, 1, 0⟩]⟩

/-- A source image with an alpha channel, one 4×4 partition. -/
def srcWithAlpha : Source :=
  ⟨4, 4, true, [⟨0, 4, 1, 0⟩]⟩

/-- A two-partition alpha-less source whose partitions have disjoint
destination byte ranges (offsets 0 and 8, one block of 8 bytes each). -/
def srcTwoParts : Source :=
  ⟨4, 8, false, [⟨0, 4, 1, 0⟩, ⟨16, 4, 1, 8⟩]⟩

/-- A source whose single partition is 4 pixels wide and, reading
`lines` as a pixel-row count per the data model, 4 pixel rows tall:
exactly one 4×4 block. -/
def srcOneBlock : Source :=
  ⟨4, 4, false, [⟨0, 4, 4, 0⟩]⟩

/-- The all-zero encoder and the all-zero store, used to instantiate the
scheduling-determinism theorem. -/
def encZero : EncodeCall → Nat → Nat :=
  fun _ _ => 0

/-- The store with both buffers all zero. -/
def storeZero : Store :=
  ⟨fun _ => 0, fun _ => 0⟩

/-- Parsing invariant: no option ever sets `rgba` without `etc2` or
clears `etc2`, so `rgba → etc2` is preserved by the getopt loop. -/
theorem foldl_applyOpt_rgba_etc2 (opts : List Opt) :
    ∀ f : Flags, (f.rgba = true → f.etc2 = true) →
      ((opts.foldl applyOpt f).rgba = true → (opts.foldl applyOpt f).etc2 = true) := by
  induction opts with
  | nil => intro f h; simpa using h
  | cons o os ih =>
    intro f h
    simp only [List.foldl_cons]
    apply ih
    cases o <;> simp [applyOpt] <;> exact h

/-- The dithering adjustment touches no field but `dither`. -/
theorem adjustDither_fields (f : Flags) :
    (adjustDither f).viewMode = f.viewMode ∧ (adjustDither f).stats = f.stats
    ∧ (adjustDither f).benchmark = f.benchmark ∧ (adjustDither f).mipmap = f.mipmap
    ∧ (adjustDither f).etc2 = f.etc2 ∧ (adjustDither f).rgba = f.rgba
    ∧ (adjustDither f).dxt1 = f.dxt1 ∧ (adjustDither f).alpha = f.alpha := by
  unfold adjustDither
  split <;> simp

/-- The effective dither flag after the adjustment: the requested flag,
masked off whenever ETC2 mode is active. -/
theorem adjustDither_dither (f : Flags) :
    (adjustDither f).dither = (f.dither && !f.etc2) := by
  unfold adjustDither
  cases he : f.etc2 <;> cases hd : f.dither <;> simp [he, hd]

/-- The queued codec calls of an encoding run, partition by partition. -/
theorem queuedCalls_encodeRun (f : Flags) (src : Source) :
    queuedCalls (encodeRun f src) =
      src.parts.flatMap
        (partUnits (selectType f.etc2 f.rgba src.hasAlpha f.dxt1)
          (f.alpha.isSome && src.hasAlpha && !f.rgba) f.dither) := by
  unfold queuedCalls encodeRun
  cases f.stats <;>
    simp only [List.filterMap_append, List.filterMap_map, List.filterMap_cons,
      List.filterMap_nil, List.append_nil, if_true, if_false, Bool.false_eq_true,
      ite_false, ite_true] <;>
    exact List.filterMap_some _

/-- Length of a flat map whose pieces all have the same length. -/
theorem length_flatMap_const {α β : Type} (g : α → List β) (c : Nat)
    (h : ∀ x, (g x).length = c) :
    ∀ l : List α, (l.flatMap g).length = c * l.length := by
  intro l
  induction l with
  | nil => simp
  | cons x xs ih =>
    simp only [List.flatMap_cons, List.length_append, List.length_cons, h, ih]
    ring

/-- Each partition contributes `unitsPerPart` queued units. -/
theorem partUnits_length (t : BlockType) (bda dit : Bool) (p : DataPart) :
    (partUnits t bda dit p).length = unitsPerPart t bda := by
  unfold partUnits unitsPerPart
  split
  · rfl
  · cases bda <;> simp

/-- `selectType` only produces an ETC2 variant when the `etc2` flag is
set. -/
theorem selectType_etc2_of_isEtc2 (e r a d : Bool)
    (h : isEtc2 (selectType e r a d) = true) : e = true := by
  revert h
  cases e <;> cases r <;> cases a <;> cases d <;> decide

/-- `selectType` only produces ETC2_RGBA when the `rgba` flag is set. -/
theorem selectType_rgba_of_rgbaType (e r a d : Bool)
    (h : selectType e r a d = BlockType.Etc2_RGBA) : r = true := by
  revert h
  cases e <;> cases r <;> cases a <;> cases d <;> decide

/-- Footprint disjointness of encoding calls is symmetric. -/
theorem disjointCalls_symm : ∀ {u v : EncodeCall},
    disjointCalls u v → disjointCalls v u := by
  intro u v h
  unfold disjointCalls at *
  tauto

/-- Writes to disjoint byte ranges of the same buffer commute. -/
theorem writeRange_comm (lo1 len1 : Nat) (d1 : Nat → Nat) (lo2 len2 : Nat)
    (d2 : Nat → Nat) (buf : Nat → Nat)
    (h : lo1 + len1 ≤ lo2 ∨ lo2 + len2 ≤ lo1) :
    writeRange lo2 len2 d2 (writeRange lo1 len1 d1 buf)
      = writeRange lo1 len1 d1 (writeRange lo2 len2 d2 buf) := by
  funext x
  unfold writeRange
  split_ifs with h1 h2 h2 <;> first | rfl | omega

/-- Two encoding calls with disjoint footprints produce the same stores
in either execution order. -/
theorem runUnit_comm (enc : EncodeCall → Nat → Nat) (s : Store)
    (u v : EncodeCall) (h : disjointCalls u v) :
    runUnit enc (runUnit enc s u) v = runUnit enc (runUnit enc s v) u := by
  have hrange : callBuf u = callBuf v →
      callOffset u + callBytes u ≤ callOffset v
      ∨ callOffset v + callBytes v ≤ callOffset u := by
    intro hb
    rcases h with hb2 | hr | hr
    · exact absurd hb hb2
    · exact Or.inl hr
    · exact Or.inr hr
  unfold runUnit
  by_cases hu : callBuf u = BufId.color <;> by_cases hv : callBuf v = BufId.color
  · simp only [if_pos hu, if_pos hv]
    rw [writeRange_comm (callOffset u) (callBytes u) (enc u) (callOffset v)
      (callBytes v) (enc v) s.color (hrange (hu.trans hv.symm))]
  · simp only [if_pos hu, if_neg hv]
  · simp only [if_neg hu, if_pos hv]
  · simp only [if_neg hu, if_neg hv]
    have hb : callBuf u = callBuf v := by
      cases hbu : callBuf u <;> cases hbv : callBuf v <;> simp_all
    rw [writeRange_comm (callOffset u) (callBytes u) (enc u) (callOffset v)
      (callBytes v) (enc v) s.alpha (hrange hb)]

/-- Running a list of pairwise-disjoint encoding calls is invariant
under permutation: the final stores agree whatever the execution order. -/
theorem runUnits_perm (enc : EncodeCall → Nat → Nat) :
    ∀ {l1 l2 : List EncodeCall}, l1.Perm l2 →
      l2.Pairwise disjointCalls → ∀ s, runUnits enc l1 s = runUnits enc l2 s := by
  intro l1 l2 hp
  induction hp with
  | nil => intro _ s; rfl
  | cons x hp ih =>
    intro hpw s
    simp only [runUnits, List.foldl_cons] at *
    exact ih (List.Pairwise.of_cons hpw) (runUnit enc s x)
  | swap x y l =>
    intro hpw s
    have hd : disjointCalls x y := (List.pairwise_cons.mp hpw).1 y (by simp)
    simp only [runUnits, List.foldl_cons]
    rw [runUnit_comm enc s y x (disjointCalls_symm hd)]
  | trans hp1 hp2 ih1 ih2 =>
    intro hpw s
    have hpw2 := (hp2.pairwise_iff @disjointCalls_symm).mpr hpw
    exact (ih1 hpw2 s).trans (ih2 hpw s)

/-- The benchmark format choice only yields an ETC2 variant when `etc2`
or `rgba` is set; without `rgba`, an ETC2 variant forces `etc2`. -/
theorem selectTypeBenchmark_etc2 (e d : Bool)
    (h : isEtc2 (selectTypeBenchmark e false d) = true) : e = true := by
  revert h
  cases e <;> cases d <;> decide

/-- Once the adjusted flag state is in ETC2 mode, its dither flag is
off. -/
theorem adjusted_dither_off (f : Flags) (h : (adjustDither f).etc2 = true) :
    (adjustDither f).dither = false := by
  have hf : f.etc2 = true := by
    rw [← (adjustDither_fields f).2.2.2.2.1]
    exact h
  rw [adjustDither_dither, hf]
  simp

/-- Every call queued for a partition under an effective dither flag of
`false` carries a dither argument of `false`. -/
theorem callDither_partUnits (t : BlockType) (bda : Bool) (p : DataPart)
    (c : EncodeCall) (hc : c ∈ partUnits t bda false p) :
    callDither c = false := by
  unfold partUnits at hc
  split at hc
  · simp only [List.mem_singleton] at hc
    subst hc
    rfl
  · cases bda <;> simp at hc
    · subst hc
      rfl
    · rcases hc with hc | hc <;> (subst hc; rfl)

/-- C1 counterexample: a benchmark run with the `--rgba` flag on a source
without an alpha channel encodes with format ETC2_RGBA, whereas the
spec's decision table row \x7betc2=true, rgba=true, sourceHasAlpha=false\x7d
demands ETC2_RGB — the benchmark path does not follow the table. -/
theorem C1_benchmark_cex :
    runFormat (mainModel [Opt.b, Opt.rgba] 1 srcNoAlpha)
        = some BlockType.Etc2_RGBA
    ∧ specFormatChoice true true srcNoAlpha.hasAlpha false = BlockType.Etc2_RGB
    ∧ runFormat (mainModel [Opt.b, Opt.rgba] 1 srcNoAlpha)
        ≠ some (specFormatChoice true true srcNoAlpha.hasAlpha false) := by
  decide

/-- C1 (amended): the normal encoding path selects the target format
exactly per the spec's decision table; the benchmark path behaves as the
table would with `sourceHasAlpha = true`, i.e. it selects ETC2_RGBA
whenever `rgba` is set, ignoring actual source alpha presence (using the
parser invariant that `rgba` implies `etc2`). -/
theorem C1_format_selection_amended (e r a d : Bool) (h : r = true → e = true) :
    selectType e r a d = specFormatChoice e r a d
    ∧ selectTypeBenchmark e r d = specFormatChoice e r true d := by
  revert h
  cases e <;> cases r <;> cases a <;> cases d <;> decide

/-- C1 witness: the amended statement at `etc2 = rgba = true`,
`srcAlpha = dxt1 = false`. -/
theorem C1_format_selection_witness :
    selectType true true false false = specFormatChoice true true false false
    ∧ selectTypeBenchmark true true false
        = specFormatChoice true true true false :=
  C1_format_selection_amended true true false false (fun _ => rfl)

/-- C9: after command-line parsing the `etc2` flag is set whenever `rgba`
is, so a lone `--rgba` still selects an ETC2 format for every source and
still triggers the automatic disabling of dithering. -/
theorem C9_rgba_implies_etc2 (opts : List Opt) (srcAlpha : Bool)
    (h : (parseOpts opts).rgba = true) :
    (parseOpts opts).etc2 = true
    ∧ isEtc2 (selectType (parseOpts opts).etc2 (parseOpts opts).rgba srcAlpha
        (parseOpts opts).dxt1) = true
    ∧ (adjustDither (parseOpts opts)).dither = false := by
  have he : (parseOpts opts).etc2 = true :=
    foldl_applyOpt_rgba_etc2 opts initialFlags (by intro hcon; cases hcon) h
  refine ⟨he, ?_, ?_⟩
  · rw [he, h]
    cases srcAlpha <;> cases (parseOpts opts).dxt1 <;> decide
  · apply adjusted_dither_off
    rw [(adjustDither_fields (parseOpts opts)).2.2.2.2.1]
    exact he

/-- C9 witness: options `-d --rgba` alone. -/
theorem C9_witness :
    (parseOpts [Opt.d, Opt.rgba]).etc2 = true
    ∧ isEtc2 (selectType (parseOpts [Opt.d, Opt.rgba]).etc2
        (parseOpts [Opt.d, Opt.rgba]).rgba false
        (parseOpts [Opt.d, Opt.rgba]).dxt1) = true
    ∧ (adjustDither (parseOpts [Opt.d, Opt.rgba])).dither = false :=
  C9_rgba_implies_etc2 [Opt.d, Opt.rgba] false (by decide)

/-- C2: in every run that selects an ETC2 variant — normal encoding or
benchmark — every codec call is issued with an effective dither flag of
`false`, whatever dithering the caller requested. -/
theorem C2_etc2_forces_dither_off (f0 : Flags) (npos : Nat) (src : Source)
    (t : BlockType) (c : EncodeCall)
    (hfmt : runFormat (mainFromFlags f0 npos src) = some t)
    (ht : isEtc2 t = true)
    (hc : c ∈ runCalls (mainFromFlags f0 npos src)) :
    callDither c = false := by
  unfold mainFromFlags at hfmt hc
  by_cases hb : (adjustDither f0).benchmark = true
  · simp only [hb, if_true, ite_true] at hfmt hc
    by_cases hn : npos < 1
    · simp [hn, runFormat] at hfmt
    · simp only [hn, if_false, ite_false] at hfmt hc
      by_cases hvm : (adjustDither f0).viewMode = true
      · simp [hvm, runFormat] at hfmt
      · simp only [hvm, Bool.false_eq_true, if_false, ite_false] at hfmt hc
        simp only [runFormat, Option.some.injEq] at hfmt
        simp only [runCalls] at hc
        unfold benchRun at hfmt hc
        simp only [List.mem_replicate] at hc
        cases hr : (adjustDither f0).rgba
        · simp only [hr, Bool.false_eq_true, if_false, ite_false] at hfmt hc
          rw [hc.2]
          have he : (adjustDither f0).etc2 = true := by
            apply selectTypeBenchmark_etc2 (adjustDither f0).etc2 (adjustDither f0).dxt1
            rw [hfmt]
            exact ht
          rw [callDither]
          exact adjusted_dither_off f0 he
        · simp only [hr, if_true, ite_true] at hc
          rw [hc.2]
          rfl
  · simp only [hb, Bool.false_eq_true, if_false, ite_false] at hfmt hc
    by_cases hn : npos < 2
    · simp [hn, runFormat] at hfmt
    · simp only [hn, if_false, ite_false] at hfmt hc
      by_cases hvm : (adjustDither f0).viewMode = true
      · simp [hvm, runFormat] at hfmt
      · simp only [hvm, Bool.false_eq_true, if_false, ite_false] at hfmt hc
        simp only [runFormat, Option.some.injEq] at hfmt
        simp only [runCalls] at hc
        rw [queuedCalls_encodeRun] at hc
        have he : (adjustDither f0).etc2 = true := by
          apply selectType_etc2_of_isEtc2 (adjustDither f0).etc2
            (adjustDither f0).rgba src.hasAlpha (adjustDither f0).dxt1
          have hfmt2 : selectType (adjustDither f0).etc2 (adjustDither f0).rgba
              src.hasAlpha (adjustDither f0).dxt1 = t := hfmt
          rw [hfmt2]
          exact ht
        have hd : (adjustDither f0).dither = false := adjusted_dither_off f0 he
        rw [hd] at hc
        rcases List.mem_flatMap.mp hc with ⟨p, _, hcp⟩
        exact callDither_partUnits _ _ p c hcp

/-- C2 witness: a normal ETC2 run with `-d` requested; the queued color
call carries dither `false`. -/
theorem C2_witness :
    callDither (EncodeCall.process BufId.color 0 1 0 4 Channel.RGB false)
      = false :=
  C2_etc2_forces_dither_off (parseOpts [Opt.etc2, Opt.d]) 2 srcNoAlpha
    BlockType.Etc2_RGB
    (EncodeCall.process BufId.color 0 1 0 4 Channel.RGB false)
    (by decide) (by decide) (by decide)

/-- C3: the separate alpha block buffer is allocated iff an alpha output
path was given, the source has an alpha channel, and combined RGBA mode
is off; when it is allocated the pipeline queues exactly
`2 * NumberOfParts()` units; and requesting combined RGBA mode always
suppresses the separate alpha output. -/
theorem C3_alpha_buffer (f : Flags) (src : Source) :
    ((encodeRun f src).alphaAllocated
        = (f.alpha.isSome && src.hasAlpha && !f.rgba))
    ∧ ((encodeRun f src).alphaAllocated = true →
        (queuedCalls (encodeRun f src)).length = 2 * src.NumberOfParts)
    ∧ (f.rgba = true → (encodeRun f src).alphaAllocated = false) := by
  refine ⟨rfl, ?_, ?_⟩
  · intro hA
    have hA2 : (f.alpha.isSome && src.hasAlpha && !f.rgba) = true := hA
    have hr : f.rgba = false := by
      cases hv : f.rgba
      · rfl
      · rw [hv] at hA2
        simp at hA2
    have htype : selectType f.etc2 f.rgba src.hasAlpha f.dxt1
        ≠ BlockType.Etc2_RGBA := by
      intro hcon
      have hrr := selectType_rgba_of_rgbaType _ _ _ _ hcon
      rw [hr] at hrr
      cases hrr
    rw [queuedCalls_encodeRun, hA2]
    rw [length_flatMap_const _ 2 (fun p => by
      rw [partUnits_length]
      simp [unitsPerPart, htype]) src.parts]
    exact Nat.mul_comm 2 src.parts.length ▸ rfl
  · intro hr
    show (f.alpha.isSome && src.hasAlpha && !f.rgba) = false
    simp [hr]

/-- C3 witness: an alpha path on an alpha-bearing source without RGBA
mode queues two units for the single partition. -/
theorem C3_witness :
    (queuedCalls (encodeRun (parseOpts [Opt.a "alpha.pvr"]) srcWithAlpha)).length
      = 2 * srcWithAlpha.NumberOfParts :=
  (C3_alpha_buffer (parseOpts [Opt.a "alpha.pvr"]) srcWithAlpha).2.1 (by decide)

/-- C10: every unit queued for the separate alpha buffer passes the
dither argument `false`, whatever format is active and whatever
dithering the caller requested. -/
theorem C10_alpha_never_dithered (f : Flags) (src : Source) (c : EncodeCall)
    (hc : c ∈ queuedCalls (encodeRun f src))
    (hbuf : callBuf c = BufId.alphaBuf) :
    callDither c = false := by
  rw [queuedCalls_encodeRun] at hc
  rcases List.mem_flatMap.mp hc with ⟨p, _, hcp⟩
  unfold partUnits at hcp
  split at hcp
  · simp only [List.mem_singleton] at hcp
    subst hcp
    simp [callBuf] at hbuf
  · rcases List.mem_append.mp hcp with h1 | h2
    · simp only [List.mem_singleton] at h1
      subst h1
      simp [callBuf] at hbuf
    · by_cases hbda : (f.alpha.isSome && src.hasAlpha && !f.rgba) = true
      · rw [if_pos hbda] at h2
        simp only [List.mem_singleton] at h2
        subst h2
        rfl
      · rw [if_neg hbda] at h2
        exact absurd h2 (List.not_mem_nil c)

/-- C10 witness: with dithering requested and ETC1 active, the queued
alpha unit still carries dither `false`. -/
theorem C10_witness :
    callDither (EncodeCall.process BufId.alphaBuf 0 1 0 4 Channel.Alpha false)
      = false :=
  C10_alpha_never_dithered (parseOpts [Opt.a "alpha.pvr", Opt.d]) srcWithAlpha
    (EncodeCall.process BufId.alphaBuf 0 1 0 4 Channel.Alpha false)
    (by decide) (by decide)

/-- No queue event in a mapped queue list counts as a sync. -/
theorem count_sync_map_queue (l : List EncodeCall) :
    (l.map Event.queue).count Event.sync = 0 := by
  simp [List.count_eq_zero, List.mem_map]

/-- C7: each encoding run contains exactly one `Sync()`, every queue
operation precedes it — the trace is all the queued units, then the
single sync, then only decode events — and the number of queued units is
`NumberOfParts()` times the per-partition unit count. -/
theorem C7_single_sync (f : Flags) (src : Source) :
    ((encodeRun f src).events.count Event.sync = 1)
    ∧ ∃ (qs : List EncodeCall) (tail : List Event),
        (encodeRun f src).events = qs.map Event.queue ++ Event.sync :: tail
        ∧ qs.length = src.NumberOfParts
            * unitsPerPart (encodeRun f src).type (encodeRun f src).alphaAllocated
        ∧ (∀ e ∈ tail, e = Event.decode) := by
  constructor
  · show ((src.parts.flatMap _).map Event.queue ++ [Event.sync]
        ++ (if f.stats then [Event.decode] else [])).count Event.sync = 1
    rw [List.count_append, List.count_append, count_sync_map_queue]
    cases f.stats <;> simp
  · refine ⟨src.parts.flatMap
        (partUnits (selectType f.etc2 f.rgba src.hasAlpha f.dxt1)
          (f.alpha.isSome && src.hasAlpha && !f.rgba) f.dither),
      (if f.stats then [Event.decode] else []), ?_, ?_, ?_⟩
    · show (src.parts.flatMap _).map Event.queue ++ [Event.sync]
          ++ (if f.stats then [Event.decode] else []) = _
      simp [List.append_assoc]
    · rw [length_flatMap_const _
        (unitsPerPart (selectType f.etc2 f.rgba src.hasAlpha f.dxt1)
          (f.alpha.isSome && src.hasAlpha && !f.rgba))
        (fun p => partUnits_length _ _ _ p) src.parts]
      exact Nat.mul_comm _ _
    · cases f.stats <;> simp

/-- Every call queued for a partition carries the loop's
`width / 4 * lines` block count. -/
theorem callBlockCount_partUnits (t : BlockType) (bda dit : Bool)
    (p : DataPart) (c : EncodeCall) (hc : c ∈ partUnits t bda dit p) :
    callBlockCount c = queuedBlockCount p := by
  unfold partUnits at hc
  split at hc
  · simp only [List.mem_singleton] at hc
    subst hc
    rfl
  · cases bda <;> simp at hc
    · subst hc
      rfl
    · rcases hc with hc | hc <;> (subst hc; rfl)

/-- For a width divisible by 4, `width / 4 * lines` counts the 4×4
blocks of a region `width` pixels wide and `4·lines` pixel rows tall. -/
theorem div_four_blocks (w l : Nat) (h : 4 ∣ w) :
    w / 4 * l = w * (4 * l) / 16 := by
  obtain ⟨k, rfl⟩ := h
  rw [Nat.mul_div_cancel_left k (by norm_num)]
  have h16 : 4 * k * (4 * l) = 16 * (k * l) := by ring
  rw [h16, Nat.mul_div_cancel_left (k * l) (by norm_num)]

/-- C4 counterexample: for the partition ⟨src 0, width 4, lines 4,
offset 0⟩ the queued blockCount is `4 / 4 * 4 = 4`, whereas
`(width × lines) / 16 = 1` — with `lines` read as the pixel-row count of
the data model, the queued count is not the partition's 4×4 block
count. -/
theorem C4_blockcount_cex :
    (queuedCalls (encodeRun initialFlags srcOneBlock)).map callBlockCount
        = [queuedBlockCount ⟨0, 4, 4, 0⟩]
    ∧ queuedBlockCount ⟨0, 4, 4, 0⟩ = 4
    ∧ specClaimedBlockCount ⟨0, 4, 4, 0⟩ = 1
    ∧ (queuedCalls (encodeRun initialFlags srcOneBlock)).map callBlockCount
        ≠ [specClaimedBlockCount ⟨0, 4, 4, 0⟩] := by
  decide

/-- C4 (amended): every queued encoding unit passes a blockCount of
`partition.width / 4 × partition.lines`, which — for widths divisible
by 4 — equals `(width × (4·lines)) / 16`: the number of 4×4 blocks in
the partition when `lines` counts rows of blocks (4 pixel rows each),
not single pixel rows. -/
theorem C4_blockcount_amended (f : Flags) (src : Source) (c : EncodeCall)
    (hc : c ∈ queuedCalls (encodeRun f src)) :
    ∃ p ∈ src.parts, callBlockCount c = queuedBlockCount p
      ∧ (4 ∣ p.width →
          callBlockCount c = p.width * (4 * p.lines) / 16) := by
  rw [queuedCalls_encodeRun] at hc
  rcases List.mem_flatMap.mp hc with ⟨p, hp, hcp⟩
  have hbc := callBlockCount_partUnits _ _ _ p c hcp
  exact ⟨p, hp, hbc, fun hdvd => by
    rw [hbc]
    exact div_four_blocks p.width p.lines hdvd⟩

/-- C4 witness: the amended statement for the single queued call of a
one-partition run. -/
theorem C4_witness :
    ∃ p ∈ srcOneBlock.parts,
      callBlockCount (EncodeCall.process BufId.color 0 4 0 4 Channel.RGB false)
        = queuedBlockCount p
      ∧ (4 ∣ p.width →
          callBlockCount (EncodeCall.process BufId.color 0 4 0 4 Channel.RGB false)
            = p.width * (4 * p.lines) / 16) :=
  C4_blockcount_amended initialFlags srcOneBlock
    (EncodeCall.process BufId.color 0 4 0 4 Channel.RGB false) (by decide)

/-- C5 counterexample: requesting RGBA output (`--rgba`) from a source
without an alpha channel is not detected or reported: the run proceeds to
the encoding phase (it is not a usage error), silently selects ETC2_RGB,
and queues work. -/
theorem C5_no_config_error_cex :
    runCalls (mainModel [Opt.rgba] 2 srcNoAlpha) ≠ []
    ∧ mainModel [Opt.rgba] 2 srcNoAlpha ≠ RunOutcome.usage
    ∧ runFormat (mainModel [Opt.rgba] 2 srcNoAlpha)
        = some BlockType.Etc2_RGB := by
  decide

/-- C5 (amended): no configuration-error check exists.  Whenever RGBA
output is requested but the source lacks alpha (in non-benchmark,
non-view mode, with both positional arguments present), the pipeline
silently falls back to ETC2_RGB and proceeds: it reaches the encoding
phase and queues one unit per partition. -/
theorem C5_silent_fallback_amended (opts : List Opt) (npos : Nat)
    (src : Source)
    (hr : (parseOpts opts).rgba = true)
    (ha : src.hasAlpha = false)
    (hb : (parseOpts opts).benchmark = false)
    (hv : (parseOpts opts).viewMode = false)
    (hn : 2 ≤ npos) :
    mainModel opts npos src
        = RunOutcome.encode (encodeRun (adjustDither (parseOpts opts)) src)
    ∧ (encodeRun (adjustDither (parseOpts opts)) src).type = BlockType.Etc2_RGB
    ∧ (queuedCalls (encodeRun (adjustDither (parseOpts opts)) src)).length
        = src.NumberOfParts := by
  have he : (adjustDither (parseOpts opts)).etc2 = true := by
    rw [(adjustDither_fields (parseOpts opts)).2.2.2.2.1]
    exact foldl_applyOpt_rgba_etc2 opts initialFlags (fun hcon => by cases hcon) hr
  have hgb : (adjustDither (parseOpts opts)).benchmark = false := by
    rw [(adjustDither_fields (parseOpts opts)).2.2.1]
    exact hb
  have hgv : (adjustDither (parseOpts opts)).viewMode = false := by
    rw [(adjustDither_fields (parseOpts opts)).1]
    exact hv
  have hn2 : ¬ npos < 2 := by omega
  have htype : selectType (adjustDither (parseOpts opts)).etc2
      (adjustDither (parseOpts opts)).rgba src.hasAlpha
      (adjustDither (parseOpts opts)).dxt1 = BlockType.Etc2_RGB := by
    rw [he, ha]
    unfold selectType
    simp
  refine ⟨?_, htype, ?_⟩
  · unfold mainModel mainFromFlags
    simp [hgb, hgv, hn2]
  · rw [queuedCalls_encodeRun]
    have hbda : ((adjustDither (parseOpts opts)).alpha.isSome && src.hasAlpha
        && !(adjustDither (parseOpts opts)).rgba) = false := by
      rw [ha]
      simp
    rw [hbda]
    rw [length_flatMap_const _ 1 (fun p => by
      rw [partUnits_length]
      simp [unitsPerPart, htype]) src.parts]
    exact Nat.one_mul _

/-- C5 witness: the amended statement for `--rgba` on an alpha-less
source with both positional arguments present. -/
theorem C5_witness :
    mainModel [Opt.rgba] 2 srcNoAlpha
        = RunOutcome.encode (encodeRun (adjustDither (parseOpts [Opt.rgba])) srcNoAlpha)
    ∧ (encodeRun (adjustDither (parseOpts [Opt.rgba])) srcNoAlpha).type
        = BlockType.Etc2_RGB
    ∧ (queuedCalls (encodeRun (adjustDither (parseOpts [Opt.rgba])) srcNoAlpha)).length
        = srcNoAlpha.NumberOfParts :=
  C5_silent_fallback_amended [Opt.rgba] 2 srcNoAlpha (by decide) (by decide)
    (by decide) (by decide) (by decide)

/-- C6: the encoded output is independent of the scheduling of queued
units.  For every pure per-call encoder, every permutation of the units
queued by an encoding run — i.e. every execution order a worker pool of
any size may realize — produces the same final buffer contents, provided
the units' write footprints are pairwise disjoint (the Partitioner's
precomputed-offset invariant). -/
theorem C6_scheduling_determinism (enc : EncodeCall → Nat → Nat) (f : Flags)
    (src : Source) (us : List EncodeCall) (s : Store)
    (hperm : us.Perm (queuedCalls (encodeRun f src)))
    (hdisj : (queuedCalls (encodeRun f src)).Pairwise disjointCalls) :
    runUnits enc us s = runUnits enc (queuedCalls (encodeRun f src)) s :=
  runUnits_perm enc hperm hdisj s

/-- C6 witness: a two-partition run executed in reversed order yields
the same store. -/
theorem C6_witness :
    runUnits encZero
        [EncodeCall.process BufId.color 16 1 8 4 Channel.RGB false,
          EncodeCall.process BufId.color 0 1 0 4 Channel.RGB false] storeZero
      = runUnits encZero (queuedCalls (encodeRun initialFlags srcTwoParts))
          storeZero :=
  C6_scheduling_determinism encZero initialFlags srcTwoParts
    [EncodeCall.process BufId.color 16 1 8 4 Channel.RGB false,
      EncodeCall.process BufId.color 0 1 0 4 Channel.RGB false]
    storeZero (by decide) (by decide)

/-- C8: when statistics are requested the decode happens last — after
the single sync — and the reported pair is
`(sqrt mse, 20·log10 255 − 10·log10 mse)` for the MSE of the decoded
pixels against the source; for positive MSE the reported PSNR equals
`10·log10(255² / mse)` and the reported RMSE squares back to the MSE. -/
theorem C8_stats_formulas (f : Flags) (src : Source) (orig dec : List Px)
    (mse : ℝ) (hs : f.stats = true) (hm : 0 < mse) :
    (encodeRun f src).events.getLast? = some Event.decode
    ∧ measureStep true (CalcMSE3 orig dec)
        = some (Real.sqrt (CalcMSE3 orig dec),
            20 * Real.logb 10 255 - 10 * Real.logb 10 (CalcMSE3 orig dec))
    ∧ reportedPSNR mse = 10 * Real.logb 10 (255 ^ 2 / mse)
    ∧ reportedRMSE mse ^ 2 = mse := by
  refine ⟨?_, rfl, ?_, ?_⟩
  · show ((src.parts.flatMap _).map Event.queue ++ [Event.sync]
        ++ (if f.stats then [Event.decode] else [])).getLast? = some Event.decode
    rw [hs]
    simp [List.getLast?_concat]
  · unfold reportedPSNR
    rw [Real.logb_div (by norm_num) (ne_of_gt hm),
      Real.logb_pow 10 255 2]
    ring
  · unfold reportedRMSE
    exact Real.sq_sqrt (le_of_lt hm)

/-- C8 witness: the statement at a concrete statistics-enabled flag
state and MSE 1. -/
theorem C8_witness :
    (encodeRun (parseOpts [Opt.s]) srcNoAlpha).events.getLast?
        = some Event.decode
    ∧ measureStep true (CalcMSE3 [] [])
        = some (Real.sqrt (CalcMSE3 [] []),
            20 * Real.logb 10 255 - 10 * Real.logb 10 (CalcMSE3 [] []))
    ∧ reportedPSNR 1 = 10 * Real.logb 10 (255 ^ 2 / 1)
    ∧ reportedRMSE 1 ^ 2 = 1 :=
  C8_stats_formulas (parseOpts [Opt.s]) srcNoAlpha [] [] 1 (by decide)
    (by norm_num)

/-- C7 witness: the trace property at a concrete one-partition run. -/
theorem C7_witness :
    ((encodeRun initialFlags srcNoAlpha).events.count Event.sync = 1)
    ∧ ∃ (qs : List EncodeCall) (tail : List Event),
        (encodeRun initialFlags srcNoAlpha).events
            = qs.map Event.queue ++ Event.sync :: tail
        ∧ qs.length = srcNoAlpha.NumberOfParts
            * unitsPerPart (encodeRun initialFlags srcNoAlpha).type
                (encodeRun initialFlags srcNoAlpha).alphaAllocated
        ∧ (∀ e ∈ tail, e = Event.decode) :=
  C7_single_sync initialFlags srcNoAlpha
